import Mathlib

/-!
Shallow embedding of `csv_api_client.py` (CLWrota example API client).

The client is a linear pipeline: load settings → load tokens → authenticate
→ fetch rota data → process rows → write CSV.  Python dictionaries are
modelled as association lists with unique keys (`dUpdate` replaces the entry
in place when the key is present and appends otherwise, exactly like a
Python dict item assignment).  Python exceptions are modelled explicitly:
`error_quit` terminations carry their message, and exceptions that the code
does not catch (`KeyError`, `TypeError`, `ValueError` escaping a `try`)
appear as a distinct `uncaught` outcome, since they terminate the process
with a traceback instead of the single-line error path.
-/

set_option maxHeartbeats 1000000

namespace CsvApiClient

/-- A Python value as it occurs in a rota record: a string, an integer, or
`None`.  `pyStr` is Python's `str()` on these values. -/
inductive Value where
  | vstr (s : String)
  | vint (n : Int)
  | vnull
  deriving DecidableEq

/-- Python `str()` on a record value; note `str(None) = "None"`, so the only
value whose string form is empty (falsy) is the empty string itself. -/
def pyStr : Value → String
  | .vstr s => s
  | .vint n => toString n
  | .vnull => "None"

/-- A rota record / output row: a Python dict, field name to value. -/
abbrev Row := List (String × Value)

/-- Python dict item assignment `d[k] = v`: replaces the entry in place when
the key is present, appends the pair otherwise. -/
def dUpdate {α : Type} : List (String × α) → String → α → List (String × α)
  | [], k, v => [(k, v)]
  | (k1, v1) :: t, k, v => if k1 = k then (k, v) :: t else (k1, v1) :: dUpdate t k v

/-- Python dict lookup `d[k]` as an `Option` (`none` models `KeyError`). -/
def dLookup {α : Type} : List (String × α) → String → Option α
  | [], _ => none
  | (k1, v1) :: t, k => if k1 = k then some v1 else dLookup t k

/-- Python `row.update(additional_fields)`: item-assign every pair of the
argument into the receiver, in order. -/
def dict_update (row : Row) (additional_fields : Row) : Row :=
  additional_fields.foldl (fun acc p => dUpdate acc p.1 p.2) row

/-- Line 288 of the source:
`all([str(value) for key, value in row.items() if key in required_fields])`.
Only fields present in the row are inspected, and a field passes exactly
when its `str()` form is non-empty. -/
def include_row (required_fields : List String) (row : Row) : Bool :=
  (row.filter (fun p => required_fields.contains p.1)).all (fun p => pyStr p.2 != "")

/-- Two-digit zero-padded decimal, as `strftime` renders `%d`, `%m`, etc. -/
def pad2 (n : Nat) : String := if n < 10 then "0" ++ toString n else toString n

/-- Four-digit zero-padded decimal, as `strftime` renders `%Y`. -/
def pad4 (n : Nat) : String :=
  if n < 10 then "000" ++ toString n
  else if n < 100 then "00" ++ toString n
  else if n < 1000 then "0" ++ toString n
  else toString n

/-- Reads two decimal digit characters as a number below 100. -/
def twoDigits? (a b : Char) : Option Nat :=
  if a.isDigit ∧ b.isDigit then some ((a.toNat - 48) * 10 + (b.toNat - 48)) else none

/-- Parses the `YYYY-MM-DD` date part accepted by `datetime.fromisoformat`. -/
def parseIsoDate (l : List Char) : Option (Nat × Nat × Nat) :=
  match l with
  | [y1, y2, y3, y4, '-', m1, m2, '-', d1, d2] =>
    match twoDigits? y1 y2, twoDigits? y3 y4, twoDigits? m1 m2, twoDigits? d1 d2 with
    | some yh, some yl, some mo, some da =>
      if 1 ≤ mo ∧ mo ≤ 12 ∧ 1 ≤ da ∧ da ≤ 31 then some (yh * 100 + yl, mo, da) else none
    | _, _, _, _ => none
  | _ => none

/-- Parses an `HH:MM:SS` time part accepted by `datetime.fromisoformat`. -/
def parseIsoTime (l : List Char) : Option (Nat × Nat × Nat) :=
  match l with
  | [h1, h2, ':', m1, m2, ':', s1, s2] =>
    match twoDigits? h1 h2, twoDigits? m1 m2, twoDigits? s1 s2 with
    | some h, some mi, some s =>
      if h ≤ 23 ∧ mi ≤ 59 ∧ s ≤ 59 then some (h, mi, s) else none
    | _, _, _ => none
  | _ => none

/-- The result of `datetime.fromisoformat`. -/
structure PyDatetime where
  year : Nat
  month : Nat
  day : Nat
  hour : Nat
  minute : Nat
  second : Nat
  deriving DecidableEq

/-- `datetime.fromisoformat`, covering the shapes the client handles: a
date `YYYY-MM-DD` (time components zero) and a seconds-precision timestamp
`YYYY-MM-DD<sep>HH:MM:SS` (CPython ignores which separator character is
used at position 10).  `none` models the `ValueError` raised on any other
string. -/
def fromisoformat (s : String) : Option PyDatetime :=
  let l := s.toList
  if l.length = 10 then
    (parseIsoDate l).map (fun p => ⟨p.1, p.2.1, p.2.2, 0, 0, 0⟩)
  else
    match l.splitAt 10 with
    | (dpart, _sep :: tpart) =>
      match parseIsoDate dpart, parseIsoTime tpart with
      | some p, some t => some ⟨p.1, p.2.1, p.2.2, t.1, t.2.1, t.2.2⟩
      | _, _ => none
    | (_, []) => none

/-- `strftime("%d/%m/%Y")`. -/
def strftime_dmy (d : PyDatetime) : String :=
  pad2 d.day ++ "/" ++ pad2 d.month ++ "/" ++ pad4 d.year

/-- `strftime("%d/%m/%Y %H:%M:%S")`. -/
def strftime_dmy_hms (d : PyDatetime) : String :=
  strftime_dmy d ++ " " ++ pad2 d.hour ++ ":" ++ pad2 d.minute ++ ":" ++ pad2 d.second

/-- A Python exception that the source code lets escape (no handler). -/
inductive PyErr where
  | keyError (k : String)
  | valueError
  | typeError
  deriving DecidableEq

/-- How processing of a single row can abort: via `error_quit` (handled,
single descriptive line, exit 1) or via an exception no handler catches. -/
inductive RowErr where
  | quit (msg : String)
  | raised (e : PyErr)
  deriving DecidableEq

/-- Lines 295-299 of the source: when `iso_dates` is off and the
`return_data_set` key being processed is `date` or `modified`, the row value
under that key is re-read and reformatted.  The `Option Value` result is the
value to store back (or `none` when the row is left untouched); the reads of
`row[key]` here sit outside the `try` block, so a missing key is an
uncaught `KeyError`, a non-string value an uncaught `TypeError`, and an
unparsable string an uncaught `ValueError`. -/
def reformat_value (iso_dates : Bool) (key : String) (ov : Option Value) :
    Except RowErr (Option Value) :=
  if iso_dates then .ok none
  else if key = "date" then
    match ov with
    | none => .error (.raised (.keyError "date"))
    | some (.vstr s) =>
      match fromisoformat s with
      | some d => .ok (some (.vstr (strftime_dmy d)))
      | none => .error (.raised .valueError)
    | some _ => .error (.raised .typeError)
  else if key = "modified" then
    match ov with
    | none => .error (.raised (.keyError "modified"))
    | some (.vstr s) =>
      match fromisoformat s with
      | some d => .ok (some (.vstr (strftime_dmy_hms d)))
      | none => .error (.raised .valueError)
    | some _ => .error (.raised .typeError)
  else .ok none

/-- Lines 290-308 of the source: iterate the `return_data_set` pairs in
order, reformat the two well-known date fields in the row when applicable,
and copy `row[key]` into the output item under the mapped column name.  A
`KeyError` from this last read is caught and becomes
`error_quit("Unknown key in return_data_set: 'key'")`. -/
def build_item (iso_dates : Bool) :
    List (String × String) → Row → Row → Except RowErr Row
  | [], _, item => .ok item
  | (key, target) :: rest, row, item =>
    match reformat_value iso_dates key (dLookup row key) with
    | .error e => .error e
    | .ok newv =>
      let row2 := match newv with
        | some v => dUpdate row key v
        | none => row
      match dLookup row2 key with
      | some v => build_item iso_dates rest row2 (dUpdate item target v)
      | none => .error (.quit ("Unknown key in return_data_set: \x27" ++ key ++ "\x27"))

/-- One department from the settings file. -/
structure Department where
  shortname : String
  system : String
  username : String
  password : String
  deriving DecidableEq

/-- A JSON scalar or array, used for the unvalidated `day_range` entry of
the settings document. -/
inductive JValue where
  | jstr (s : String)
  | jint (n : Int)
  | jbool (b : Bool)
  | jnull
  | jarr (l : List String)
  deriving DecidableEq

/-- The settings document after `validate_settings` has defaulted the
optional `additional_fields` and `required_fields` entries. -/
structure Settings where
  departments : List Department
  day_range : JValue
  return_data_set : List (String × String)
  required_fields : List String
  additional_fields : List (String × Value)
  deriving DecidableEq

/-- Outcome of the processing stage for the whole record list. -/
inductive ProcOutcome where
  | ok (rows : List Row)
  | errorQuit (msg : String)
  | uncaught (e : PyErr)
  deriving DecidableEq

/-- Lines 281-308 of the source, for one record: merge `additional_fields`
into the row, test `include_row`, and when the row is kept build the output
item.  `none` means the row was filtered out. -/
def process_row (s : Settings) (iso_dates : Bool) (row : Row) :
    Option (Except RowErr Row) :=
  let merged := dict_update row s.additional_fields
  if include_row s.required_fields merged then
    some (build_item iso_dates s.return_data_set merged [])
  else none

/-- The loop of `process_data`, accumulating kept rows; the first abort
(handled or uncaught) terminates the program. -/
def process_data_go (s : Settings) (iso_dates : Bool) :
    List Row → List Row → ProcOutcome
  | [], acc => .ok acc.reverse
  | r :: rs, acc =>
    match process_row s iso_dates r with
    | none => process_data_go s iso_dates rs acc
    | some (.ok item) => process_data_go s iso_dates rs (item :: acc)
    | some (.error (.quit msg)) => .errorQuit msg
    | some (.error (.raised e)) => .uncaught e

/-- `process_data` of the source: transform the fetched record list into
the list of output rows handed to `write_csv`. -/
def process_data (s : Settings) (iso_dates : Bool) (all_rota_data : List Row) :
    ProcOutcome :=
  process_data_go s iso_dates all_rota_data []

/-- One CSV cell as `csv.DictWriter` renders it: the `str()` of the row's
value under the column name, or the default `restval` (empty string) when
the column is absent from the row. -/
def csv_cell (row : Row) (h : String) : String :=
  match dLookup row h with
  | some v => pyStr v
  | none => ""

/-- The data-row loop of `write_csv`: `DictWriter.writerow` per row, with
`extrasaction` left at its default, so a row holding a key outside the
header raises `ValueError` (caught by the source and fed to `error_quit`)
and stops the output there. -/
def write_rows (headers : List String) : List Row → List (List String) × Option String
  | [] => ([], none)
  | r :: rs =>
    if r.any (fun p => !(headers.contains p.1)) then
      ([], some "dict contains fields not in fieldnames")
    else
      let rest := write_rows headers rs
      (headers.map (csv_cell r) :: rest.1, rest.2)

/-- Lines 335-344 of the source: `writeheader()` runs first, so the header
row is emitted before any data row can fail. -/
def write_csv (headers : List String) (processed_data : List Row) :
    List (List String) × Option String :=
  let body := write_rows headers processed_data
  (headers :: body.1, body.2)

/-- The transform-and-write tail of the pipeline: the CSV produced (as rows
of cells) when processing succeeds, `none` when the program aborted before
reaching `write_csv`. -/
def pipeline_csv (s : Settings) (iso_dates : Bool) (data : List Row) :
    Option (List (List String)) :=
  match process_data s iso_dates data with
  | .ok rows => some (write_csv (s.return_data_set.map Prod.snd) rows).1
  | .errorQuit _ => none
  | .uncaught _ => none

/-- Reads a list of decimal digits, `none` when empty or non-digit. -/
def digitsToNat? (l : List Char) : Option Nat :=
  if l ≠ [] ∧ l.all Char.isDigit then
    some (l.foldl (fun a c => a * 10 + (c.toNat - 48)) 0)
  else none

/-- Python `int(s)` on a string: strips spaces, allows one sign, then
requires a non-empty digit run; `none` models the `ValueError` otherwise. -/
def pyIntOfString (s : String) : Option Int :=
  let l := ((s.toList.dropWhile (· = ' ')).reverse.dropWhile (· = ' ')).reverse
  match l with
  | '-' :: rest => (digitsToNat? rest).map (fun n => -(n : Int))
  | '+' :: rest => (digitsToNat? rest).map (fun n => (n : Int))
  | rest => (digitsToNat? rest).map (fun n => (n : Int))

/-- Python `int(v)` on a JSON value: integers and booleans convert, strings
parse (`ValueError` on failure), and `None` or an array raise `TypeError`. -/
def py_int : JValue → Except PyErr Int
  | .jint n => .ok n
  | .jbool b => .ok (if b then 1 else 0)
  | .jstr s =>
    match pyIntOfString s with
    | some n => .ok n
    | none => .error .valueError
  | .jnull => .error .typeError
  | .jarr _ => .error .typeError

/-- Outcome of the `day_range` validation step. -/
inductive CheckOutcome where
  | ok (n : Int)
  | errorQuit (msg : String)
  | uncaught (e : PyErr)
  deriving DecidableEq

/-- Lines 93-97 of the source: `int(settings['day_range'])` guarded by
`except ValueError` only, so a `TypeError` (from `None` or a non-scalar)
escapes uncaught. -/
def check_day_range (v : JValue) : CheckOutcome :=
  match py_int v with
  | .ok n => .ok n
  | .error .valueError => .errorQuit "Ensure day_range is an integer"
  | .error .typeError => .uncaught .typeError
  | .error (.keyError k) => .uncaught (.keyError k)

/-- The on-disk/in-memory tokens document: system kind → department
shortname → token string or `None`. -/
abbrev TokensData := List (String × List (String × Option String))

/-- `tokens_data[system][shortname]`: outer `none` models the `KeyError`
caught at line 166, `some t` the stored token (possibly `None`). -/
def lookup_token (td : TokensData) (sys sn : String) : Option (Option String) :=
  match dLookup td sys with
  | none => none
  | some inner => dLookup inner sn

/-- The dict comprehension of `load_tokens` for one system kind: one
`None`-token entry per configured department of that kind. -/
def dept_token_dict (sys : String) (departments : List Department) :
    List (String × Option String) :=
  (departments.filter (fun d => d.system = sys)).foldl
    (fun acc d => dUpdate acc d.shortname none) []

/-- Lines 114-122 of the source: the tokens dictionary synthesized when
`tokens.json` is absent, one sub-dictionary per recognized system kind. -/
def synth_tokens (departments : List Department) : TokensData :=
  [("clwrota", dept_token_dict "clwrota" departments),
   ("medirota", dept_token_dict "medirota" departments)]

/-- Result of the landing-page probe request. -/
inductive ProbeResult where
  | status (code : Nat)
  | connError (msg : String)
  deriving DecidableEq

/-- Result of the login POST: a fresh token, a transport failure, or an
HTTP error status whose JSON body carries the remote error message. -/
inductive LoginResult where
  | token (t : String)
  | connError (msg : String)
  | httpError (msg : String)
  deriving DecidableEq

/-- The network environment the client runs against: what each GET of a
landing URL returns, and what each login POST (url, username, password)
returns. -/
structure World where
  probe : String → ProbeResult
  login : String → String → String → LoginResult

/-- Observable side effects of the authentication stage: a login POST for a
department, or a rewrite of the whole tokens file with the given content. -/
inductive AuthEvent where
  | loginCall (system shortname : String)
  | fileWrite (tokens : TokensData)
  deriving DecidableEq

/-- Outcome of processing one department inside `authenticate`. -/
inductive StepOut where
  | stepOk (url : String) (tokens : TokensData)
  | stepQuit (msg : String)
  | stepRaise (e : PyErr)
  deriving DecidableEq

/-- `'https://{}.{}.com/publicapi/'.format(shortname, system)`. -/
def base_url (d : Department) : String :=
  "https://" ++ d.shortname ++ "." ++ d.system ++ ".com/publicapi/"

/-- How Python's `str.format` renders the token slot: a stored `None`
becomes the literal string `"None"` inside the probe URL. -/
def token_str : Option String → String
  | some s => s
  | none => "None"

/-- Lines 176-208 of the source: the login branch.  A transport failure or
an HTTP error ends in `error_quit`; on success the token is stored under
`tokens_data[system][shortname]` (an uncaught `KeyError` when the system
kind is absent from the tokens document) and the whole document is written
back to disk. -/
def do_login (w : World) (tokens : TokensData) (d : Department) :
    List AuthEvent × StepOut :=
  match w.login (base_url d ++ "login/") d.username d.password with
  | .connError m => ([.loginCall d.system d.shortname], .stepQuit m)
  | .httpError m => ([.loginCall d.system d.shortname], .stepQuit m)
  | .token t =>
    match dLookup tokens d.system with
    | none => ([.loginCall d.system d.shortname], .stepRaise (.keyError d.system))
    | some inner =>
      let tokens2 := dUpdate tokens d.system (dUpdate inner d.shortname (some t))
      ([.loginCall d.system d.shortname, .fileWrite tokens2],
       .stepOk (base_url d ++ t) tokens2)

/-- Lines 139-210 of the source, for one department: look the token up
(`KeyError` means no probe and an immediate login), probe the landing page
with the token rendered into the URL (a transport failure is fatal), accept
status 200 or 420, and otherwise log in.  Accepting a stored `None` token
makes the final `base_url + token` concatenation raise `TypeError`. -/
def auth_step (w : World) (tokens : TokensData) (d : Department) :
    List AuthEvent × StepOut :=
  match lookup_token tokens d.system d.shortname with
  | none => do_login w tokens d
  | some t =>
    match w.probe (base_url d ++ token_str t ++ "/landing/") with
    | .connError m => ([], .stepQuit m)
    | .status c =>
      if c = 200 ∨ c = 420 then
        match t with
        | some ts => ([], .stepOk (base_url d ++ ts) tokens)
        | none => ([], .stepRaise .typeError)
      else do_login w tokens d

/-- Final outcome of the authentication stage. -/
inductive AuthOutcome where
  | ok (urls : List String) (tokens : TokensData)
  | errorQuit (msg : String)
  | uncaught (e : PyErr)
  deriving DecidableEq

/-- The authentication stage's observable run: its side effects in order,
and how it ended. -/
structure AuthResult where
  events : List AuthEvent
  outcome : AuthOutcome
  deriving DecidableEq

/-- The department loop of `authenticate`, threading the tokens dictionary
and accumulating the authenticated base URLs. -/
def authenticate_go (w : World) :
    List Department → TokensData → List String → AuthResult
  | [], tokens, urls => ⟨[], .ok urls.reverse tokens⟩
  | d :: rest, tokens, urls =>
    match auth_step w tokens d with
    | (evs, .stepOk url tokens2) =>
      let r := authenticate_go w rest tokens2 (url :: urls)
      ⟨evs ++ r.events, r.outcome⟩
    | (evs, .stepQuit m) => ⟨evs, .errorQuit m⟩
    | (evs, .stepRaise e) => ⟨evs, .uncaught e⟩

/-- `authenticate` of the source. -/
def authenticate (w : World) (departments : List Department) (tokens : TokensData) :
    AuthResult :=
  authenticate_go w departments tokens []

/-- One data-read request of `get_rota_data`: its URL and its
`from_date` / `to_date` query parameters, dates as day numbers. -/
structure FetchRequest where
  url : String
  from_date : Int
  to_date : Int
  deriving DecidableEq

/-- Lines 224-235 of the source: the date window is computed once before
the loop — `from_date = date.today()`,
`to_date = from_date + timedelta(days=int(day_range) - 1)` — and the same
parameters dictionary is sent to every department URL. -/
def get_rota_requests (day_range : Int) (today : Int)
    (department_urls : List String) : List FetchRequest :=
  department_urls.map (fun u => ⟨u ++ "/person_rota/", today, today + (day_range - 1)⟩)

/-- Concrete department used in witnesses and counterexamples. -/
def demoDept : Department := ⟨"a", "clwrota", "u", "p"⟩

/-- A network in which every probe succeeds with status 200 and every login
yields the token `"T"`. -/
def worldAccepting : World := ⟨fun _ => .status 200, fun _ _ _ => .token "T"⟩

/-- A network in which every probe answers 404 and every login yields the
token `"T"`. -/
def worldRejecting : World := ⟨fun _ => .status 404, fun _ _ _ => .token "T"⟩

/-- A concrete tokens document holding a valid cached token for
`demoDept`. -/
def demoTokens : TokensData := [("clwrota", [("a", some "TOK")])]

/-- Settings with `required_fields = ["name"]` and a single projected
column, used to evaluate the row-inclusion test. -/
def settingsReqName : Settings :=
  ⟨[], .jint 1, [("date", "Date")], ["name"], []⟩

/-- Settings with no required fields and `date` as the only source key. -/
def settingsDateOnly : Settings :=
  ⟨[], .jint 1, [("date", "Date")], [], []⟩

/-- Settings whose `additional_fields` override the `dept` source field. -/
def settingsAddDept : Settings :=
  ⟨[], .jint 1, [("dept", "Dept")], [], [("dept", .vstr "X")]⟩

/-- The single-department list used in witnesses and counterexamples. -/
def demoDeps : List Department := [demoDept]

/-- The value the last entry of an association list assigns to a key
(`none` when the key never occurs): the value a left-to-right sequence of
dict item assignments leaves in place. -/
def lastLookup {α : Type} : List (String × α) → String → Option α
  | [], _ => none
  | (k1, v1) :: t, k =>
    match lastLookup t k with
    | some v => some v
    | none => if k1 = k then some v1 else none

theorem dLookup_dUpdate {α : Type} (r : List (String × α)) (k k2 : String) (v : α) :
    dLookup (dUpdate r k v) k2 = if k2 = k then some v else dLookup r k2 := by
  induction r with
  | nil =>
    simp only [dUpdate, dLookup]
    by_cases h : k = k2
    · subst h; simp
    · simp [h, Ne.symm h]
  | cons p t ih =>
    obtain ⟨k1, v1⟩ := p
    simp only [dUpdate]
    by_cases h1 : k1 = k
    · subst h1
      simp only [if_pos rfl, dLookup]
      by_cases h2 : k1 = k2
      · subst h2; simp
      · simp [h2, Ne.symm h2]
    · simp only [if_neg h1, dLookup, ih]
      by_cases h2 : k1 = k2
      · subst h2
        simp [h1]
      · simp [h2]

theorem mem_keys_dUpdate {α : Type} (r : List (String × α)) (k k2 : String) (v : α) :
    k2 ∈ (dUpdate r k v).map Prod.fst ↔ (k2 = k ∨ k2 ∈ r.map Prod.fst) := by
  induction r with
  | nil => simp [dUpdate]
  | cons p t ih =>
    obtain ⟨k1, v1⟩ := p
    by_cases h1 : k1 = k
    · subst h1
      simp [dUpdate]
    · simp [dUpdate, h1, ih]
      tauto

theorem nodup_keys_dUpdate {α : Type} (r : List (String × α)) (k : String) (v : α)
    (h : (r.map Prod.fst).Nodup) : ((dUpdate r k v).map Prod.fst).Nodup := by
  induction r with
  | nil => simp [dUpdate]
  | cons p t ih =>
    obtain ⟨k1, v1⟩ := p
    simp only [List.map_cons, List.nodup_cons] at h
    by_cases h1 : k1 = k
    · subst h1
      simpa [dUpdate] using h
    · simp only [dUpdate, h1, if_false, List.map_cons, List.nodup_cons]
      refine ⟨fun hm => ?_, ih h.2⟩
      rcases (mem_keys_dUpdate t k k1 v).mp hm with h2 | h2
      · exact h1 h2
      · exact h.1 h2

/-- C1: the claim says a record in which a required field is absent is
excluded from the output.  The code's inclusion test only inspects fields
that are present in the record, so the record `{"date": "2022-06-20"}` with
`required_fields = ["name"]` passes the filter and is projected into the
output (here in ISO mode, so no date reformatting interferes), while a
record whose required field is present but empty is indeed dropped. -/
theorem C1_missing_required_field_included :
    process_data settingsReqName true [[("date", .vstr "2022-06-20")]]
      = .ok [[("Date", .vstr "2022-06-20")]] ∧
    include_row ["name"] [("date", .vstr "2022-06-20")] = true ∧
    include_row ["name"] [("name", .vstr ""), ("date", .vstr "2022-06-20")] = false := by
  decide

/-- C2: the claim says every missing source key — including `date` and
`modified` with ISO-date mode off — is a fatal error through the single
descriptive-line path.  For the key `date` with ISO mode off, the read
`row['date']` at line 297 sits outside the `try` block, so the program dies
with an uncaught `KeyError` traceback instead; the handled
`error_quit` path is reached for the very same input only when ISO mode is
on (where the read happens inside the `try`). -/
theorem C2_missing_date_key_uncaught :
    process_data settingsDateOnly false [[("name", .vstr "x")]]
      = .uncaught (.keyError "date") ∧
    process_data settingsDateOnly true [[("name", .vstr "x")]]
      = .errorQuit ("Unknown key in return_data_set: \x27date\x27") := by
  decide

/-- C8: the claim says every shape of invalid day-range value terminates
through the descriptive-message error path.  A non-numeric string does
(`int` raises `ValueError`, which is caught), but `null` or an array make
`int(...)` raise `TypeError`, which the `except ValueError` clause at line
96 does not catch, so the program dies with an uncaught traceback instead
of the single descriptive line. -/
theorem C8_day_range_check_eval :
    check_day_range (.jstr "abc") = .errorQuit "Ensure day_range is an integer" ∧
    check_day_range (.jstr "7") = .ok 7 ∧
    check_day_range .jnull = .uncaught .typeError ∧
    check_day_range (.jarr ["3"]) = .uncaught .typeError := by
  decide

/-- C9: every data-read request carries the window from today through
today plus (day-range − 1) days inclusive, so the identical window goes to
every department. -/
theorem C9_fetch_window (day_range today : Int) (urls : List String)
    (r : FetchRequest) (h : r ∈ get_rota_requests day_range today urls) :
    r.from_date = today ∧ r.to_date = today + (day_range - 1) := by
  simp only [get_rota_requests, List.mem_map] at h
  obtain ⟨u, _, rfl⟩ := h
  exact ⟨rfl, rfl⟩

/-- Witness for C9 at a concrete run. -/
theorem C9_fetch_window_witness :
    (⟨"https://a.clwrota.com/publicapi/TOK/person_rota/", 100, 104⟩ : FetchRequest).from_date
        = 100 ∧
    (⟨"https://a.clwrota.com/publicapi/TOK/person_rota/", 100, 104⟩ : FetchRequest).to_date
        = 100 + (5 - 1) :=
  C9_fetch_window 5 100 ["https://a.clwrota.com/publicapi/TOK"] _ (by decide)

/-- C7: for a department whose stored token exists and whose landing-page
probe answers 200 or 420, the authentication step performs no login call,
rewrites no tokens file (no side effects at all), leaves the whole tokens
dictionary — in particular that department's entry — unchanged, and hands
the authenticated base URL to the next stage. -/
theorem C7_valid_token_no_login (w : World) (tokens : TokensData)
    (d : Department) (t : String) (c : Nat)
    (hlk : lookup_token tokens d.system d.shortname = some (some t))
    (hpr : w.probe (base_url d ++ t ++ "/landing/") = .status c)
    (hc : c = 200 ∨ c = 420) :
    auth_step w tokens d = ([], .stepOk (base_url d ++ t) tokens) := by
  simp [auth_step, hlk, token_str, hpr, hc]

/-- Witness for C7 at a concrete department, token store and network. -/
theorem C7_valid_token_no_login_witness :
    auth_step worldAccepting demoTokens demoDept
      = ([], .stepOk (base_url demoDept ++ "TOK") demoTokens) :=
  C7_valid_token_no_login worldAccepting demoTokens demoDept "TOK" 200
    (by decide) rfl (Or.inl rfl)

/-- C6 counterexample: with the tokens file absent, the synthesized
mapping holds a `None` token for the configured department, but the claim's
"attempts a fresh login for every configured department" fails: the code
still probes the landing page with the literal string `None` in the URL,
and against a server that answers 200 to that probe no login call happens
at all (the run then dies on `base_url + None`, an uncaught `TypeError`). -/
theorem C6_counterexample :
    lookup_token (synth_tokens demoDeps) "clwrota" "a" = some none ∧
    (authenticate worldAccepting demoDeps (synth_tokens demoDeps)).events = [] ∧
    (authenticate worldAccepting demoDeps (synth_tokens demoDeps)).outcome
      = .uncaught .typeError := by
  decide

/-- C4: whenever the pipeline reaches CSV output, the first emitted row is
exactly the `return_data_set` target names in declared order, whatever the
input records contained. -/
theorem C4_csv_header (s : Settings) (iso_dates : Bool) (data : List Row)
    (lines : List (List String))
    (h : pipeline_csv s iso_dates data = some lines) :
    lines.head? = some (s.return_data_set.map Prod.snd) := by
  unfold pipeline_csv at h
  cases hp : process_data s iso_dates data with
  | ok rows =>
    rw [hp] at h
    simp only [write_csv, Option.some.injEq] at h
    rw [← h]
    rfl
  | errorQuit msg => rw [hp] at h; simp at h
  | uncaught e => rw [hp] at h; simp at h

/-- Witness for C4 at a concrete run (record fields deliberately out of
mapping order). -/
theorem C4_csv_header_witness :
    ([["Date"], ["2022-06-20"]] : List (List String)).head?
      = some (settingsDateOnly.return_data_set.map Prod.snd) :=
  C4_csv_header settingsDateOnly true
    [[("other", .vstr "y"), ("date", .vstr "2022-06-20")]]
    [["Date"], ["2022-06-20"]] (by decide)

theorem build_item_ok_keys (iso_dates : Bool) :
    ∀ (rds : List (String × String)) (row item out : Row),
      build_item iso_dates rds row item = .ok out →
      ∀ k, k ∈ out.map Prod.fst ↔ (k ∈ item.map Prod.fst ∨ k ∈ rds.map Prod.snd) := by
  intro rds
  induction rds with
  | nil =>
    intro row item out h k
    simp only [build_item] at h
    have h2 := Except.ok.inj h
    subst h2
    simp
  | cons p rest ih =>
    obtain ⟨key, tgt⟩ := p
    intro row item out h k
    simp only [build_item] at h
    cases hrv : reformat_value iso_dates key (dLookup row key) with
    | error e => simp [hrv] at h
    | ok newv =>
      rw [hrv] at h
      cases newv with
      | none =>
        simp only at h
        cases hl : dLookup row key with
        | none => simp [hl] at h
        | some v =>
          simp only [hl] at h
          have h2 := ih row (dUpdate item tgt v) out h k
          rw [mem_keys_dUpdate] at h2
          simp only [List.map_cons, List.mem_cons]
          tauto
      | some v2 =>
        simp only at h
        cases hl : dLookup (dUpdate row key v2) key with
        | none => simp [hl] at h
        | some v =>
          simp only [hl] at h
          have h2 := ih (dUpdate row key v2) (dUpdate item tgt v) out h k
          rw [mem_keys_dUpdate] at h2
          simp only [List.map_cons, List.mem_cons]
          tauto

theorem process_data_go_rows (s : Settings) (iso_dates : Bool) :
    ∀ (data acc rows : List Row),
      process_data_go s iso_dates data acc = .ok rows →
      ∀ r ∈ rows, r ∈ acc ∨
        ∃ m, build_item iso_dates s.return_data_set m [] = .ok r := by
  intro data
  induction data with
  | nil =>
    intro acc rows h r hr
    simp only [process_data_go] at h
    have h2 := ProcOutcome.ok.inj h
    subst h2
    exact Or.inl (List.mem_reverse.mp hr)
  | cons r0 rs ih =>
    intro acc rows h r hr
    simp only [process_data_go] at h
    cases hpr : process_row s iso_dates r0 with
    | none =>
      rw [hpr] at h
      exact ih acc rows h r hr
    | some res =>
      cases res with
      | ok item =>
        rw [hpr] at h
        simp only at h
        rcases ih (item :: acc) rows h r hr with hin | hex
        · rcases List.mem_cons.mp hin with heq | hin2
          · subst heq
            right
            unfold process_row at hpr
            cases hinc : include_row s.required_fields (dict_update r0 s.additional_fields) with
            | false => simp [hinc] at hpr
            | true =>
              simp only [hinc, if_true, Option.some.injEq] at hpr
              exact ⟨dict_update r0 s.additional_fields, hpr⟩
          · exact Or.inl hin2
        · exact Or.inr hex
      | error e =>
        cases e with
        | quit msg => simp [hpr] at h
        | raised e2 => simp [hpr] at h

/-- C10: every data row that `process_data` hands to the CSV writer has
exactly the `return_data_set` target names as its key set: a value for
every configured output column and no key outside them, so every data line
aligns with the header. -/
theorem C10_row_keys (s : Settings) (iso_dates : Bool) (data rows : List Row)
    (h : process_data s iso_dates data = .ok rows) :
    ∀ r ∈ rows, ∀ k, k ∈ r.map Prod.fst ↔ k ∈ s.return_data_set.map Prod.snd := by
  intro r hr k
  rcases process_data_go_rows s iso_dates data [] rows h r hr with h0 | ⟨m, hm⟩
  · simp at h0
  · have h2 := build_item_ok_keys iso_dates s.return_data_set m [] r hm k
    simpa using h2

/-- Witness for C10 at a concrete run (the input record carries an extra
field that must not survive projection). -/
theorem C10_row_keys_witness :
    "Date" ∈ ([("Date", Value.vstr "x")] : Row).map Prod.fst
      ↔ "Date" ∈ settingsDateOnly.return_data_set.map Prod.snd :=
  C10_row_keys settingsDateOnly true
    [[("date", .vstr "x"), ("junk", .vstr "y")]]
    [[("Date", .vstr "x")]] (by decide)
    [("Date", .vstr "x")] (by decide) "Date"

theorem fromiso_date_demo : fromisoformat "2022-06-20" = some ⟨2022, 6, 20, 0, 0, 0⟩ := by
  decide

theorem fromiso_ts_demo :
    fromisoformat "2022-06-20T14:05:00" = some ⟨2022, 6, 20, 14, 5, 0⟩ := by
  decide

theorem strf_demo : strftime_dmy ⟨2022, 6, 20, 0, 0, 0⟩ = "20/06/2022" := by
  decide

theorem strf_hms_demo :
    strftime_dmy_hms ⟨2022, 6, 20, 14, 5, 0⟩ = "20/06/2022 14:05:00" := by
  decide

/-- C3: for any kept record holding `date = "2022-06-20"` and
`modified = "2022-06-20T14:05:00"`, non-ISO mode outputs them as
`"20/06/2022"` and `"20/06/2022 14:05:00"` under their mapped column names,
and ISO mode passes both through unchanged. -/
theorem C3_date_reformat (req : List String) (r : Row) (td tm : String)
    (h1 : dLookup r "date" = some (.vstr "2022-06-20"))
    (h2 : dLookup r "modified" = some (.vstr "2022-06-20T14:05:00"))
    (hne : td ≠ tm)
    (hinc : include_row req r = true) :
    process_row ⟨[], .jint 1, [("date", td), ("modified", tm)], req, []⟩ false r
      = some (.ok [(td, .vstr "20/06/2022"), (tm, .vstr "20/06/2022 14:05:00")]) ∧
    process_row ⟨[], .jint 1, [("date", td), ("modified", tm)], req, []⟩ true r
      = some (.ok [(td, .vstr "2022-06-20"), (tm, .vstr "2022-06-20T14:05:00")]) := by
  constructor
  · simp [process_row, dict_update, hinc, build_item, reformat_value, h1, h2,
      fromiso_date_demo, fromiso_ts_demo, strf_demo, strf_hms_demo,
      dLookup_dUpdate, dUpdate, hne]
  · simp [process_row, dict_update, hinc, build_item, reformat_value, h1, h2,
      dUpdate, hne]

/-- Witness for C3 at a concrete kept record. -/
theorem C3_date_reformat_witness :
    process_row ⟨[], .jint 1, [("date", "Date"), ("modified", "Modified")], [], []⟩ false
        [("date", .vstr "2022-06-20"), ("modified", .vstr "2022-06-20T14:05:00")]
      = some (.ok [("Date", .vstr "20/06/2022"), ("Modified", .vstr "20/06/2022 14:05:00")]) ∧
    process_row ⟨[], .jint 1, [("date", "Date"), ("modified", "Modified")], [], []⟩ true
        [("date", .vstr "2022-06-20"), ("modified", .vstr "2022-06-20T14:05:00")]
      = some (.ok [("Date", .vstr "2022-06-20"), ("Modified", .vstr "2022-06-20T14:05:00")]) :=
  C3_date_reformat []
    [("date", .vstr "2022-06-20"), ("modified", .vstr "2022-06-20T14:05:00")]
    "Date" "Modified" (by decide) (by decide) (by decide) (by decide)


theorem lastLookup_cons {α : Type} (k1 : String) (v1 : α) (t : List (String × α))
    (k : String) :
    lastLookup ((k1, v1) :: t) k =
      match lastLookup t k with
      | some v => some v
      | none => if k1 = k then some v1 else none := rfl

theorem dict_update_cons (r : Row) (k1 : String) (v1 : Value) (t : Row) :
    dict_update r ((k1, v1) :: t) = dict_update (dUpdate r k1 v1) t := rfl

theorem dLookup_dict_update_of_last_none (af : Row) :
    ∀ (r : Row) (k : String), lastLookup af k = none →
      dLookup (dict_update r af) k = dLookup r k := by
  induction af with
  | nil => intro r k _; rfl
  | cons p t ih =>
    obtain ⟨k1, v1⟩ := p
    intro r k h
    rw [lastLookup_cons] at h
    cases hl : lastLookup t k with
    | some v => rw [hl] at h; cases h
    | none =>
      rw [hl] at h
      have h2 : (if k1 = k then some v1 else none) = (none : Option Value) := h
      have hk1 : ¬ k1 = k := by
        intro hh
        rw [if_pos hh] at h2
        cases h2
      rw [dict_update_cons, ih (dUpdate r k1 v1) k hl, dLookup_dUpdate]
      have hk : ¬ k = k1 := fun hh => hk1 hh.symm
      rw [if_neg hk]

theorem dLookup_dict_update_of_last_some (af : Row) :
    ∀ (r : Row) (k : String) (v : Value), lastLookup af k = some v →
      dLookup (dict_update r af) k = some v := by
  induction af with
  | nil => intro r k v h; cases h
  | cons p t ih =>
    obtain ⟨k1, v1⟩ := p
    intro r k v h
    rw [lastLookup_cons] at h
    cases hl : lastLookup t k with
    | some v2 =>
      rw [hl] at h
      have h2 : some v2 = some v := h
      have h3 := Option.some.inj h2
      subst h3
      rw [dict_update_cons]
      exact ih (dUpdate r k1 v1) k v2 hl
    | none =>
      rw [hl] at h
      have h2 : (if k1 = k then some v1 else none) = some v := h
      by_cases hk1 : k1 = k
      · rw [if_pos hk1] at h2
        have h3 := Option.some.inj h2
        subst h3
        subst hk1
        rw [dict_update_cons, dLookup_dict_update_of_last_none t (dUpdate r k1 v1) k1 hl,
          dLookup_dUpdate]
        simp
      · rw [if_neg hk1] at h2
        cases h2

theorem lastLookup_eq_none_iff {α : Type} (af : List (String × α)) (k : String) :
    lastLookup af k = none ↔ k ∉ af.map Prod.fst := by
  induction af with
  | nil => simp [lastLookup]
  | cons p t ih =>
    obtain ⟨k1, v1⟩ := p
    rw [lastLookup_cons]
    simp only [List.map_cons, List.mem_cons]
    cases hl : lastLookup t k with
    | some v =>
      have hmem : k ∈ t.map Prod.fst := by
        by_contra hcon
        have h2 := ih.mpr hcon
        rw [hl] at h2
        cases h2
      constructor
      · intro h; cases h
      · intro h; exact absurd (Or.inr hmem) h
    | none =>
      have hnm := ih.mp hl
      constructor
      · intro h
        have h2 : (if k1 = k then some v1 else none) = (none : Option α) := h
        have hk1 : ¬ k1 = k := by
          intro hh
          rw [if_pos hh] at h2
          cases h2
        intro hcon
        rcases hcon with hcon | hcon
        · exact hk1 hcon.symm
        · exact hnm hcon
      · intro h
        have hk1 : ¬ k1 = k := fun hh => h (Or.inl hh.symm)
        show (if k1 = k then some v1 else none) = (none : Option α)
        rw [if_neg hk1]

theorem lastLookup_of_mem (af : Row) (k : String) (v : Value)
    (hnd : (af.map Prod.fst).Nodup) (h : (k, v) ∈ af) :
    lastLookup af k = some v := by
  induction af with
  | nil => cases h
  | cons p t ih =>
    obtain ⟨k1, v1⟩ := p
    simp only [List.map_cons, List.nodup_cons] at hnd
    rw [lastLookup_cons]
    rcases List.mem_cons.mp h with heq | hmem
    · obtain ⟨hk, hv⟩ := Prod.mk.inj heq
      subst hk
      subst hv
      have hnone : lastLookup t k = none :=
        (lastLookup_eq_none_iff t k).mpr hnd.1
      rw [hnone]
      show (if k = k then some v else none) = some v
      rw [if_pos rfl]
    · rw [ih hnd.2 hmem]

theorem nodup_keys_dict_update (af : Row) :
    ∀ (r : Row), ((r.map Prod.fst).Nodup) →
      (((dict_update r af).map Prod.fst).Nodup) := by
  induction af with
  | nil => intro r h; exact h
  | cons p t ih =>
    obtain ⟨k1, v1⟩ := p
    intro r h
    rw [dict_update_cons]
    exact ih (dUpdate r k1 v1) (nodup_keys_dUpdate r k1 v1 h)

theorem dLookup_eq_some_iff_mem {α : Type} :
    ∀ (r : List (String × α)), ((r.map Prod.fst).Nodup) → ∀ (k : String) (v : α),
      (dLookup r k = some v ↔ (k, v) ∈ r) := by
  intro r
  induction r with
  | nil => intro _ k v; simp [dLookup]
  | cons p t ih =>
    obtain ⟨k1, v1⟩ := p
    intro hnd k v
    simp only [List.map_cons, List.nodup_cons] at hnd
    simp only [dLookup, List.mem_cons]
    by_cases h1 : k1 = k
    · subst h1
      rw [if_pos rfl]
      constructor
      · intro hh
        exact Or.inl (by rw [Prod.mk.injEq]; exact ⟨rfl, (Option.some.inj hh).symm⟩)
      · intro hh
        rcases hh with hh | hh
        · obtain ⟨_, hv⟩ := Prod.mk.inj hh
          rw [hv]
        · exact absurd (List.mem_map.mpr ⟨(k1, v), hh, rfl⟩) hnd.1
    · rw [if_neg h1]
      have hk : ¬ k = k1 := fun hh => h1 hh.symm
      rw [ih hnd.2 k v]
      constructor
      · exact Or.inr
      · intro hh
        rcases hh with hh | hh
        · exact absurd (Prod.mk.inj hh).1 hk
        · exact hh

theorem include_row_iff (req : List String) (r : Row)
    (hnd : (r.map Prod.fst).Nodup) :
    include_row req r = true ↔
      ∀ k v, dLookup r k = some v → k ∈ req → pyStr v ≠ "" := by
  unfold include_row
  rw [List.all_eq_true]
  constructor
  · intro h k v hl hk
    have hm : (k, v) ∈ r := (dLookup_eq_some_iff_mem r hnd k v).mp hl
    have h2 := h (k, v) (List.mem_filter.mpr ⟨hm, by simpa using hk⟩)
    simpa using h2
  · intro h p hp
    obtain ⟨hm, hreq⟩ := List.mem_filter.mp hp
    have hl := (dLookup_eq_some_iff_mem r hnd p.1 p.2).mpr hm
    have h2 := h p.1 p.2 hl (by simpa using hreq)
    simpa using h2

theorem include_row_congr (req : List String) (m m2 : Row)
    (hm : (m.map Prod.fst).Nodup) (hm2 : (m2.map Prod.fst).Nodup)
    (heq : ∀ k, dLookup m k = dLookup m2 k) :
    include_row req m = include_row req m2 := by
  have h1 := include_row_iff req m hm
  have h2 := include_row_iff req m2 hm2
  by_cases hb : include_row req m = true
  · have hp := h1.mp hb
    have hb2 : include_row req m2 = true :=
      h2.mpr (fun k v hl hk => hp k v (by rw [heq k]; exact hl) hk)
    rw [hb, hb2]
  · have hb2 : ¬ include_row req m2 = true := by
      intro hbt
      exact hb (h1.mpr (fun k v hl hk => (h2.mp hbt) k v (by rw [← heq k]; exact hl) hk))
    simp only [Bool.not_eq_true] at hb hb2
    rw [hb, hb2]

theorem build_item_congr (iso_dates : Bool) :
    ∀ (rds : List (String × String)) (m m2 item : Row),
      (∀ k, dLookup m k = dLookup m2 k) →
      build_item iso_dates rds m item = build_item iso_dates rds m2 item := by
  intro rds
  induction rds with
  | nil => intro m m2 item _; rfl
  | cons p rest ih =>
    obtain ⟨key, tgt⟩ := p
    intro m m2 item heq
    simp only [build_item]
    rw [heq key]
    cases hrv : reformat_value iso_dates key (dLookup m2 key) with
    | error e => rfl
    | ok newv =>
      cases newv with
      | none =>
        simp only
        rw [heq key]
        cases hl : dLookup m2 key with
        | none => rfl
        | some v =>
          simp only
          exact ih m m2 (dUpdate item tgt v) heq
      | some v2 =>
        simp only
        have heq2 : ∀ k2, dLookup (dUpdate m key v2) k2 = dLookup (dUpdate m2 key v2) k2 := by
          intro k2
          rw [dLookup_dUpdate, dLookup_dUpdate, heq k2]
        rw [heq2 key]
        cases hl : dLookup (dUpdate m2 key v2) key with
        | none => rfl
        | some v =>
          simp only
          exact ih (dUpdate m key v2) (dUpdate m2 key v2) (dUpdate item tgt v) heq2

/-- C5: the additional-fields mapping is merged into every record before
filtering and projection: the merged record holds the additional-fields
value under every additional-fields key, and the whole processing outcome
of a record is insensitive to what the record originally stored under those
keys (two records agreeing outside the additional-fields keys process
identically). -/
theorem C5_additional_fields_override (s : Settings) (iso_dates : Bool)
    (r r2 : Row) (k : String) (v : Value)
    (hafnd : (s.additional_fields.map Prod.fst).Nodup)
    (hrnd : (r.map Prod.fst).Nodup) (hr2nd : (r2.map Prod.fst).Nodup)
    (hag : ∀ k2, k2 ∉ s.additional_fields.map Prod.fst → dLookup r k2 = dLookup r2 k2)
    (hkv : (k, v) ∈ s.additional_fields) :
    dLookup (dict_update r s.additional_fields) k = some v ∧
    process_row s iso_dates r = process_row s iso_dates r2 := by
  have hlast : lastLookup s.additional_fields k = some v :=
    lastLookup_of_mem s.additional_fields k v hafnd hkv
  refine ⟨dLookup_dict_update_of_last_some s.additional_fields r k v hlast, ?_⟩
  have heqm : ∀ k2, dLookup (dict_update r s.additional_fields) k2
      = dLookup (dict_update r2 s.additional_fields) k2 := by
    intro k2
    cases hl : lastLookup s.additional_fields k2 with
    | some v2 =>
      rw [dLookup_dict_update_of_last_some s.additional_fields r k2 v2 hl,
        dLookup_dict_update_of_last_some s.additional_fields r2 k2 v2 hl]
    | none =>
      rw [dLookup_dict_update_of_last_none s.additional_fields r k2 hl,
        dLookup_dict_update_of_last_none s.additional_fields r2 k2 hl]
      exact hag k2 ((lastLookup_eq_none_iff s.additional_fields k2).mp hl)
  have hmnd := nodup_keys_dict_update s.additional_fields r hrnd
  have hm2nd := nodup_keys_dict_update s.additional_fields r2 hr2nd
  show (if include_row s.required_fields (dict_update r s.additional_fields) = true
      then some (build_item iso_dates s.return_data_set (dict_update r s.additional_fields) [])
      else none)
    = (if include_row s.required_fields (dict_update r2 s.additional_fields) = true
      then some (build_item iso_dates s.return_data_set (dict_update r2 s.additional_fields) [])
      else none)
  rw [include_row_congr s.required_fields _ _ hmnd hm2nd heqm]
  cases hb : include_row s.required_fields (dict_update r2 s.additional_fields) with
  | false => rfl
  | true =>
    simp only [if_true]
    rw [build_item_congr iso_dates s.return_data_set _ _ [] heqm]

/-- Witness for C5: the record originally holds `dept = "orig"`, the
additional fields force `dept = "X"`, and processing the record equals
processing a record lacking `dept` entirely. -/
theorem C5_additional_fields_override_witness :
    dLookup (dict_update [("dept", Value.vstr "orig")] settingsAddDept.additional_fields)
        "dept" = some (.vstr "X") ∧
    process_row settingsAddDept false [("dept", .vstr "orig")]
      = process_row settingsAddDept false [] :=
  C5_additional_fields_override settingsAddDept false
    [("dept", .vstr "orig")] [] "dept" (.vstr "X")
    (by decide) (by decide) (by decide)
    (by
      intro k2 hk2
      simp only [settingsAddDept, List.map_cons, List.map_nil, List.mem_cons,
        List.not_mem_nil, or_false] at hk2
      have hk : ¬ "dept" = k2 := fun hh => hk2 hh.symm
      simp [dLookup, hk])
    (by decide)


theorem lookup_token_some (td : TokensData) (sys sn : String) (x : Option String)
    (h : lookup_token td sys sn = some x) :
    ∃ inner, dLookup td sys = some inner ∧ dLookup inner sn = some x := by
  unfold lookup_token at h
  cases hl : dLookup td sys with
  | none => rw [hl] at h; cases h
  | some inner =>
    rw [hl] at h
    exact ⟨inner, rfl, h⟩

theorem lookup_token_update_other (td : TokensData) (sys sn : String)
    (inner : List (String × Option String)) (t : String) (sys2 sn2 : String)
    (hin : dLookup td sys = some inner)
    (hne : ¬(sys2 = sys ∧ sn2 = sn)) :
    lookup_token (dUpdate td sys (dUpdate inner sn (some t))) sys2 sn2
      = lookup_token td sys2 sn2 := by
  unfold lookup_token
  rw [dLookup_dUpdate]
  by_cases hs : sys2 = sys
  · subst hs
    rw [if_pos rfl, hin]
    have hsn : ¬ sn2 = sn := fun hh => hne ⟨rfl, hh⟩
    show dLookup (dUpdate inner sn (some t)) sn2 = dLookup inner sn2
    rw [dLookup_dUpdate, if_neg hsn]
  · rw [if_neg hs]

theorem auth_step_none_token (w : World) (tokens : TokensData) (d : Department)
    (inner : List (String × Option String)) (c : Nat) (t : String)
    (hin : dLookup tokens d.system = some inner)
    (hsn : dLookup inner d.shortname = some none)
    (hpr : w.probe (base_url d ++ "None" ++ "/landing/") = .status c)
    (hc : ¬(c = 200 ∨ c = 420))
    (hlg : w.login (base_url d ++ "login/") d.username d.password = .token t) :
    auth_step w tokens d =
      ([.loginCall d.system d.shortname,
        .fileWrite (dUpdate tokens d.system (dUpdate inner d.shortname (some t)))],
       .stepOk (base_url d ++ t)
         (dUpdate tokens d.system (dUpdate inner d.shortname (some t)))) := by
  have hlk : lookup_token tokens d.system d.shortname = some none := by
    unfold lookup_token
    rw [hin]
    exact hsn
  simp [auth_step, hlk, token_str, hpr, hc, do_login, hlg, hin]

theorem dLookup_token_fold (l : List Department) :
    ∀ (acc : List (String × Option String)) (k : String),
      (k ∈ l.map (fun d => d.shortname) ∨ dLookup acc k = some none) →
      dLookup (l.foldl (fun a d => dUpdate a d.shortname none) acc) k = some none := by
  induction l with
  | nil =>
    intro acc k h
    rcases h with h | h
    · simp at h
    · simpa using h
  | cons d t ih =>
    intro acc k h
    rw [List.foldl_cons]
    apply ih
    by_cases hk : k = d.shortname
    · subst hk
      right
      rw [dLookup_dUpdate, if_pos rfl]
    · rcases h with h | h
      · simp only [List.map_cons, List.mem_cons] at h
        rcases h with h2 | h2
        · exact absurd h2 hk
        · exact Or.inl h2
      · right
        rw [dLookup_dUpdate, if_neg hk]
        exact h

theorem lookup_synth_tokens (deps : List Department) (d : Department)
    (hd : d ∈ deps) (hsys : d.system = "clwrota" ∨ d.system = "medirota") :
    lookup_token (synth_tokens deps) d.system d.shortname = some none := by
  have hmem : ∀ sys : String, d.system = sys →
      d.shortname ∈ (deps.filter (fun d2 => d2.system = sys)).map (fun d2 => d2.shortname) := by
    intro sys hs
    exact List.mem_map.mpr ⟨d, List.mem_filter.mpr ⟨hd, by simp [hs]⟩, rfl⟩
  rcases hsys with hs | hs
  · unfold lookup_token synth_tokens
    rw [hs]
    simp only [dLookup, if_pos rfl]
    unfold dept_token_dict
    exact dLookup_token_fold _ _ _ (Or.inl (hmem "clwrota" hs))
  · unfold lookup_token synth_tokens
    rw [hs]
    have hne : ¬ ("clwrota" : String) = "medirota" := by decide
    simp only [dLookup, if_neg hne, if_pos rfl]
    unfold dept_token_dict
    exact dLookup_token_fold _ _ _ (Or.inl (hmem "medirota" hs))

theorem auth_all_logins (w : World) :
    ∀ (deps : List Department) (tokens : TokensData) (urls : List String),
      (∀ d ∈ deps, lookup_token tokens d.system d.shortname = some none) →
      ((deps.map (fun d => (d.system, d.shortname))).Nodup) →
      (∀ d ∈ deps, ∃ c, w.probe (base_url d ++ "None" ++ "/landing/") = .status c ∧
          ¬(c = 200 ∨ c = 420)) →
      (∀ d ∈ deps, ∃ t, w.login (base_url d ++ "login/") d.username d.password = .token t) →
      ∀ d ∈ deps, AuthEvent.loginCall d.system d.shortname
        ∈ (authenticate_go w deps tokens urls).events := by
  intro deps
  induction deps with
  | nil =>
    intro tokens urls _ _ _ _ d hd
    simp at hd
  | cons d0 rest ih =>
    intro tokens urls hlk hnd hpr hlg d hd
    obtain ⟨c, hc1, hc2⟩ := hpr d0 (List.mem_cons_self d0 rest)
    obtain ⟨t, ht⟩ := hlg d0 (List.mem_cons_self d0 rest)
    obtain ⟨inner, hin, hsn⟩ :=
      lookup_token_some tokens d0.system d0.shortname none (hlk d0 (List.mem_cons_self d0 rest))
    have hstep := auth_step_none_token w tokens d0 inner c t hin hsn hc1 hc2 ht
    simp only [authenticate_go, hstep]
    rcases List.mem_cons.mp hd with heq | hd2
    · subst heq
      simp
    · have hlk2 : ∀ d2 ∈ rest, lookup_token
          (dUpdate tokens d0.system (dUpdate inner d0.shortname (some t)))
          d2.system d2.shortname = some none := by
        intro d2 hd2m
        have hne : ¬(d2.system = d0.system ∧ d2.shortname = d0.shortname) := by
          intro hboth
          obtain ⟨ha, hb⟩ := hboth
          have hmem2 : (d0.system, d0.shortname)
              ∈ rest.map (fun d3 => (d3.system, d3.shortname)) :=
            List.mem_map.mpr ⟨d2, hd2m, by rw [ha, hb]⟩
          exact (List.nodup_cons.mp hnd).1 hmem2
        rw [lookup_token_update_other tokens d0.system d0.shortname inner t
          d2.system d2.shortname hin hne]
        exact hlk d2 (List.mem_cons_of_mem d0 hd2m)
      have hrec := ih (dUpdate tokens d0.system (dUpdate inner d0.shortname (some t)))
        ((base_url d0 ++ t) :: urls) hlk2 (List.nodup_cons.mp hnd).2
        (fun d2 hd2m => hpr d2 (List.mem_cons_of_mem d0 hd2m))
        (fun d2 hd2m => hlg d2 (List.mem_cons_of_mem d0 hd2m))
        d hd2
      simp only [List.mem_append]
      exact Or.inr hrec

/-- C6 amended: when the tokens file is absent, the synthesized token
mapping holds one null entry per configured department under its system
kind, and the client then probes each department's landing endpoint with
the literal `None` token rendered into the URL; a fresh login is attempted
for a department exactly when that probe does not answer 200 or 420 — so
whenever every such probe is rejected (as any server rejecting the invalid
URL does) and logins succeed, a login call happens for every configured
department. -/
theorem C6_amended (deps : List Department) (w : World)
    (hsys : ∀ d ∈ deps, d.system = "clwrota" ∨ d.system = "medirota")
    (hnd : (deps.map (fun d => (d.system, d.shortname))).Nodup)
    (hpr : ∀ d ∈ deps, ∃ c, w.probe (base_url d ++ "None" ++ "/landing/") = .status c ∧
        ¬(c = 200 ∨ c = 420))
    (hlg : ∀ d ∈ deps, ∃ t, w.login (base_url d ++ "login/") d.username d.password
        = .token t) :
    (∀ d ∈ deps, lookup_token (synth_tokens deps) d.system d.shortname = some none) ∧
    (∀ d ∈ deps, AuthEvent.loginCall d.system d.shortname
      ∈ (authenticate w deps (synth_tokens deps)).events) := by
  have hlk : ∀ d ∈ deps, lookup_token (synth_tokens deps) d.system d.shortname = some none :=
    fun d hd => lookup_synth_tokens deps d hd (hsys d hd)
  exact ⟨hlk, auth_all_logins w deps (synth_tokens deps) [] hlk hnd hpr hlg⟩

/-- Witness for the amended C6 against a rejecting network. -/
theorem C6_amended_witness :
    lookup_token (synth_tokens demoDeps) demoDept.system demoDept.shortname = some none ∧
    AuthEvent.loginCall demoDept.system demoDept.shortname
      ∈ (authenticate worldRejecting demoDeps (synth_tokens demoDeps)).events :=
  have h := C6_amended demoDeps worldRejecting
    (by decide) (by decide)
    (fun _ _ => ⟨404, rfl, by decide⟩)
    (fun _ _ => ⟨"T", rfl⟩)
  ⟨h.1 demoDept (by decide), h.2 demoDept (by decide)⟩

end CsvApiClient
